import Mathlib

/-!
Shallow embedding of `src/hermes_watcher.py`, the change-detection pipeline of
the hermes-watcher repository, together with proofs of its specified
properties.  Markup is modelled as the DOM-ordered list of anchor elements;
the fetch step and the SMTP transport are external collaborators, modelled by
an `Except` input and a boolean failure flag.
-/

namespace HermesWatcher

/-- An anchor element of the parsed markup: its link target (`href`) and its
raw visible text (`BeautifulSoup.get_text(strip := True)` is modelled below
by `String.trim`). -/
structure Anchor where
  href : String
  text : String
deriving DecidableEq, Repr

/-- Markup is modelled as the DOM-ordered list of anchor elements of the
page; elements irrelevant to the selector simply never match. -/
abbrev Markup := List Anchor

/-- The substring the CSS selector `a[href*='/us/en/product/']` looks for. -/
def productHrefPattern : String := "/us/en/product/"

/-- Substring containment on strings, modelling CSS `[href*=pat]`. -/
def containsSubstr (pat s : String) : Bool :=
  decide (pat.data <:+: s.data)

/-- Whether an anchor is selected by `soup.select("a[href*='/us/en/product/']")`. -/
def matchesSelector (a : Anchor) : Bool :=
  containsSubstr productHrefPattern a.href

/-- Whitespace-stripping of a string on both ends, modelling the `strip=True`
of `get_text` (Python's `str.strip()`). -/
def strip (s : String) : String :=
  ⟨((s.data.dropWhile Char.isWhitespace).reverse.dropWhile
      Char.isWhitespace).reverse⟩

/-- The `names` list built by `extract_product_list`: the stripped text of
each matching anchor, with empty-after-stripping texts dropped
(`text = a.get_text(strip=True); if text: names.append(text)`). -/
def namesOf (html : Markup) : List String :=
  ((html.filter matchesSelector).map (fun a => strip a.text)).filter
    (fun t => t != "")

/-- Lexicographic comparison of character lists by code point, the order
Python's `sorted` uses on strings. -/
def charListLe : List Char → List Char → Bool
  | [], _ => true
  | _ :: _, [] => false
  | a :: as, b :: bs =>
    if a < b then true
    else if b < a then false
    else charListLe as bs

/-- The sort relation on strings: code-point lexicographic order. -/
def strLe (a b : String) : Prop := charListLe a.data b.data = true

instance : DecidableRel strLe := fun a b =>
  inferInstanceAs (Decidable (charListLe a.data b.data = true))

/-- The `unique_names` list of `extract_product_list`:
`sorted(set(names))`, i.e. the distinct names in ascending lexicographic
order. -/
def uniqueNamesOf (html : Markup) : List String :=
  List.insertionSort strLe (namesOf html).dedup

/-- The sentinel returned when no product name survives extraction. -/
def NO_PRODUCTS_FOUND : String := "NO_PRODUCTS_FOUND"

/-- `extract_product_list` from `src/hermes_watcher.py`: select the anchors
whose link target contains `/us/en/product/`, trim their texts, drop empties,
deduplicate and sort, then return the sentinel if nothing is left and the
newline-join otherwise. -/
def extract_product_list (html : Markup) : String :=
  let unique_names := uniqueNamesOf html
  if unique_names.isEmpty then NO_PRODUCTS_FOUND
  else String.intercalate "\n" unique_names

/-- The environment-variable driven mail configuration: `SMTP_USER`,
`SMTP_PASS` and the raw `EMAIL_TO` variable (each possibly absent). -/
structure Config where
  smtpUser : Option String
  smtpPass : Option String
  emailToVar : Option String
deriving DecidableEq, Repr

/-- Python truthiness of an optional string: `None` and `""` are falsy. -/
def truthy : Option String → Bool
  | none => false
  | some s => s != ""

/-- `EMAIL_TO = os.environ.get("EMAIL_TO", SMTP_USER)`. -/
def EMAIL_TO (c : Config) : Option String :=
  match c.emailToVar with
  | some v => some v
  | none => c.smtpUser

/-- `EMAIL_ENABLED = bool(SMTP_USER and SMTP_PASS and EMAIL_TO)`. -/
def EMAIL_ENABLED (c : Config) : Bool :=
  truthy c.smtpUser && truthy c.smtpPass && truthy (EMAIL_TO c)

/-- Observable side effects of a run: a snapshot write, a call of the
notifier by the orchestrator, and an actual network send over SMTP. -/
inductive Ev where
  | save (content : String)
  | notifyCall (subject : String) (body : String)
  | netSend (user : String) (toAddr : String) (subject : String) (body : String)
deriving DecidableEq, Repr

def Ev.isSave : Ev → Bool
  | .save _ => true
  | _ => false

def Ev.isNotifyCall : Ev → Bool
  | .notifyCall _ _ => true
  | _ => false

def Ev.isNetSend : Ev → Bool
  | .netSend _ _ _ _ => true
  | _ => false

/-- The SMTP transport (`starttls`, `login`, `send_message`): an external call
that either delivers the message or raises; whether it raises is an input of
the model. -/
def smtpTransport (transportFails : Bool) (user toAddr subject body : String) :
    Except String (List Ev) :=
  if transportFails then Except.error "SMTPException"
  else Except.ok [Ev.netSend user toAddr subject body]

/-- `send_email_notification` from `src/hermes_watcher.py`: when
`EMAIL_ENABLED` is false it logs and returns; otherwise it attempts the SMTP
send inside `try/except`, so a transport failure is caught, logged and
swallowed and the function still returns normally. -/
def send_email_notification (c : Config) (transportFails : Bool)
    (subject body : String) : Except String (List Ev) :=
  if !EMAIL_ENABLED c then
    Except.ok []
  else
    match smtpTransport transportFails (c.smtpUser.getD "")
        ((EMAIL_TO c).getD "") subject body with
    | Except.ok evs => Except.ok evs
    | Except.error _e => Except.ok []

/-- The subject line used by `main`. -/
def SUBJECT : String := "Hermès bags page changed!"

/-- The email body built by `main` (three f-strings concatenated). -/
def emailBody (url previous current : String) : String :=
  "Hermès bags page has changed.\n\nURL: " ++ url ++ "\n\n" ++
    "Previous product list:\n" ++ previous ++ "\n\n" ++
    "New product list:\n" ++ current ++ "\n"

/-- `main` from `src/hermes_watcher.py`, given the previously loaded snapshot,
the outcome of `fetch_page_html` and whether the SMTP transport would fail.
Returns the ordered trace of side effects, or the uncaught exception. -/
def mainRun (c : Config) (url : String) (previous : String)
    (fetched : Except String Markup) (transportFails : Bool) :
    Except String (List Ev) :=
  match fetched with
  | Except.error e => Except.error e
  | Except.ok html =>
    let current := extract_product_list html
    if previous = "" then
      Except.ok [Ev.save current]
    else if current = previous then
      Except.ok []
    else
      match send_email_notification c transportFails SUBJECT
          (emailBody url previous current) with
      | Except.ok evs =>
          Except.ok (Ev.notifyCall SUBJECT (emailBody url previous current) ::
            evs ++ [Ev.save current])
      | Except.error e => Except.error e

/-- Snapshot file content after replaying a trace over the prior content. -/
def persistedAfter (previous : String) (tr : List Ev) : String :=
  tr.foldl (fun acc e => match e with | Ev.save s => s | _ => acc) previous

/-- Snapshot file content after a whole run (unchanged if the run raised). -/
def persistedAfterRun (c : Config) (url previous : String)
    (fetched : Except String Markup) (transportFails : Bool) : String :=
  match mainRun c url previous fetched transportFails with
  | Except.error _ => previous
  | Except.ok tr => persistedAfter previous tr

/-- Whether some save event strictly precedes some notifier call. -/
def saveBeforeNotify : List Ev → Bool
  | [] => false
  | e :: rest => (e.isSave && rest.any Ev.isNotifyCall) || saveBeforeNotify rest

/-- Whether some notifier call strictly precedes some save event. -/
def notifyBeforeSave : List Ev → Bool
  | [] => false
  | e :: rest => (e.isNotifyCall && rest.any Ev.isSave) || notifyBeforeSave rest

/-! ### Properties of the lexicographic comparator -/

theorem charListLe_refl : ∀ l : List Char, charListLe l l = true
  | [] => rfl
  | a :: as => by simp [charListLe, lt_irrefl, charListLe_refl as]

theorem charListLe_total : ∀ l₁ l₂ : List Char,
    charListLe l₁ l₂ = true ∨ charListLe l₂ l₁ = true
  | [], _ => Or.inl rfl
  | _ :: _, [] => Or.inr rfl
  | a :: as, b :: bs => by
    rcases lt_trichotomy a b with hab | hab | hab
    · exact Or.inl (by simp [charListLe, hab])
    · subst hab
      rcases charListLe_total as bs with h | h
      · exact Or.inl (by simp [charListLe, lt_irrefl, h])
      · exact Or.inr (by simp [charListLe, lt_irrefl, h])
    · exact Or.inr (by simp [charListLe, hab])

theorem charListLe_trans : ∀ l₁ l₂ l₃ : List Char,
    charListLe l₁ l₂ = true → charListLe l₂ l₃ = true → charListLe l₁ l₃ = true
  | [], _, _, _, _ => rfl
  | _ :: _, [], _, h₁, _ => by simp [charListLe] at h₁
  | _ :: _, _ :: _, [], _, h₂ => by simp [charListLe] at h₂
  | a :: as, b :: bs, c :: cs, h₁, h₂ => by
    rcases lt_trichotomy a b with hab | hab | hab
    · rcases lt_trichotomy b c with hbc | hbc | hbc
      · simp [charListLe, hab.trans hbc]
      · subst hbc; simp [charListLe, hab]
      · simp [charListLe, hbc, asymm hbc] at h₂
    · subst hab
      rcases lt_trichotomy a c with hac | hac | hac
      · simp [charListLe, hac]
      · subst hac
        simp only [charListLe, lt_irrefl, if_neg (lt_irrefl a)] at h₁ h₂ ⊢
        exact charListLe_trans as bs cs h₁ h₂
      · simp [charListLe, hac, asymm hac] at h₂
    · simp [charListLe, hab, asymm hab] at h₁

theorem charListLe_antisymm : ∀ l₁ l₂ : List Char,
    charListLe l₁ l₂ = true → charListLe l₂ l₁ = true → l₁ = l₂
  | [], [], _, _ => rfl
  | [], _ :: _, _, h₂ => by simp [charListLe] at h₂
  | _ :: _, [], h₁, _ => by simp [charListLe] at h₁
  | a :: as, b :: bs, h₁, h₂ => by
    rcases lt_trichotomy a b with hab | hab | hab
    · simp [charListLe, hab, asymm hab] at h₂
    · subst hab
      simp only [charListLe, lt_irrefl, if_neg (lt_irrefl a)] at h₁ h₂
      rw [charListLe_antisymm as bs h₁ h₂]
    · simp [charListLe, hab, asymm hab] at h₁

instance : IsTotal String strLe :=
  ⟨fun a b => charListLe_total a.data b.data⟩

instance : IsTrans String strLe :=
  ⟨fun a b c => charListLe_trans a.data b.data c.data⟩

instance : IsAntisymm String strLe :=
  ⟨fun a b h₁ h₂ => String.ext (charListLe_antisymm a.data b.data h₁ h₂)⟩

/-! ### Structure of the extractor's output -/

theorem sorted_uniqueNamesOf (html : Markup) :
    (uniqueNamesOf html).Sorted strLe :=
  List.sorted_insertionSort strLe _

theorem nodup_uniqueNamesOf (html : Markup) : (uniqueNamesOf html).Nodup :=
  (List.perm_insertionSort strLe _).nodup_iff.mpr (List.nodup_dedup _)

theorem mem_uniqueNamesOf {t : String} {html : Markup} :
    t ∈ uniqueNamesOf html ↔ t ∈ namesOf html :=
  ((List.perm_insertionSort strLe _).mem_iff).trans List.mem_dedup

theorem uniqueNamesOf_eq_of_mem_iff {h₁ h₂ : Markup}
    (h : ∀ t, t ∈ namesOf h₁ ↔ t ∈ namesOf h₂) :
    uniqueNamesOf h₁ = uniqueNamesOf h₂ :=
  List.eq_of_perm_of_sorted
    ((List.perm_ext_iff_of_nodup (nodup_uniqueNamesOf h₁)
        (nodup_uniqueNamesOf h₂)).mpr fun t =>
      mem_uniqueNamesOf.trans ((h t).trans mem_uniqueNamesOf.symm))
    (sorted_uniqueNamesOf h₁) (sorted_uniqueNamesOf h₂)

theorem extract_product_list_def (html : Markup) :
    extract_product_list html =
      if (uniqueNamesOf html).isEmpty then NO_PRODUCTS_FOUND
      else String.intercalate "\n" (uniqueNamesOf html) := rfl

/-! ### Facts about the notifier and orchestrator -/

/-- `send_email_notification` never propagates an exception: it either no-ops
(disabled), records the one attempted network send, or swallows the caught
transport failure; in each case it returns normally. -/
theorem notifier_shape (c : Config) (tf : Bool) (s b : String) :
    send_email_notification c tf s b = Except.ok [] ∨
      ∃ u toA, send_email_notification c tf s b =
        Except.ok [Ev.netSend u toA s b] := by
  cases h : EMAIL_ENABLED c with
  | false => left; simp [send_email_notification, h]
  | true =>
    cases tf with
    | false =>
      right
      exact ⟨c.smtpUser.getD "", (EMAIL_TO c).getD "",
        by simp [send_email_notification, h, smtpTransport]⟩
    | true => left; simp [send_email_notification, h, smtpTransport]

theorem notifier_never_raises (c : Config) (tf : Bool) (s b : String) :
    ∃ evs, send_email_notification c tf s b = Except.ok evs ∧
      evs.countP Ev.isNotifyCall = 0 ∧ evs.countP Ev.isSave = 0 := by
  rcases notifier_shape c tf s b with h | ⟨u, toA, h⟩
  · exact ⟨[], h, rfl, rfl⟩
  · exact ⟨[Ev.netSend u toA s b], h, rfl, rfl⟩

/-- The trace of a changed run: the notifier call, whatever the notifier did,
and then the snapshot write, in that order. -/
theorem mainRun_changed (c : Config) (url prev : String) (html : Markup)
    (tf : Bool) (hprev : prev ≠ "")
    (hne : extract_product_list html ≠ prev) :
    ∃ evs, send_email_notification c tf SUBJECT
        (emailBody url prev (extract_product_list html)) = Except.ok evs ∧
      mainRun c url prev (Except.ok html) tf =
        Except.ok (Ev.notifyCall SUBJECT
            (emailBody url prev (extract_product_list html)) ::
          evs ++ [Ev.save (extract_product_list html)]) := by
  obtain ⟨evs, hevs, -, -⟩ := notifier_never_raises c tf SUBJECT
    (emailBody url prev (extract_product_list html))
  refine ⟨evs, hevs, ?_⟩
  simp only [mainRun, if_neg hprev, if_neg hne, hevs]

theorem persistedAfter_append_save (prev : String) (l : List Ev) (s : String) :
    persistedAfter prev (l ++ [Ev.save s]) = s := by
  simp [persistedAfter, List.foldl_append]

theorem prev_infix_emailBody (url p cur : String) :
    containsSubstr p (emailBody url p cur) = true := by
  simp only [containsSubstr, decide_eq_true_eq]
  refine ⟨("Hermès bags page has changed.\n\nURL: " ++ url ++ "\n\n" ++
    "Previous product list:\n").data,
    ("\n\n" ++ "New product list:\n" ++ cur ++ "\n").data, ?_⟩
  simp [emailBody, List.append_assoc]

theorem cur_infix_emailBody (url p cur : String) :
    containsSubstr cur (emailBody url p cur) = true := by
  simp only [containsSubstr, decide_eq_true_eq]
  refine ⟨("Hermès bags page has changed.\n\nURL: " ++ url ++ "\n\n" ++
    "Previous product list:\n" ++ p ++ "\n\n" ++ "New product list:\n").data,
    ("\n" : String).data, ?_⟩
  simp [emailBody, List.append_assoc]

/-! ### Length of the newline join -/

theorem le_length_intercalate_go (s : String) :
    ∀ (l : List String) (acc : String),
      acc.length ≤ (String.intercalate.go acc s l).length
  | [], _ => Nat.le_refl _
  | b :: bs, acc => by
    have h1 : acc.length ≤ (acc ++ s ++ b).length := by
      simp [String.length_append]
      omega
    exact h1.trans (le_length_intercalate_go s bs (acc ++ s ++ b))

theorem intercalate_cons_ne_empty {a : String} (l : List String)
    (ha : a ≠ "") : String.intercalate "\n" (a :: l) ≠ "" := by
  intro h
  have h1 : a.length ≤ (String.intercalate "\n" (a :: l)).length :=
    le_length_intercalate_go "\n" l a
  rw [h] at h1
  have h2 : a.length = 0 := Nat.le_zero.mp h1
  exact ha (String.ext (List.length_eq_zero.mp h2))

/-! ### The claims -/

/-- C3: when the snapshot store returns the empty string (no prior snapshot),
the orchestrator persists the freshly extracted current snapshot, performs
zero notification sends, and terminates successfully, whatever the current
snapshot is (including the sentinel). -/
theorem claim_C3_first_run_saves_without_notify (c : Config) (url : String)
    (html : Markup) (tf : Bool) :
    mainRun c url "" (Except.ok html) tf =
        Except.ok [Ev.save (extract_product_list html)] ∧
      ([Ev.save (extract_product_list html)]).countP Ev.isNotifyCall = 0 ∧
      persistedAfterRun c url "" (Except.ok html) tf =
        extract_product_list html :=
  ⟨rfl, rfl, rfl⟩

/-- C4: when the prior snapshot is non-empty and exactly equal to the freshly
extracted current snapshot, the run produces no event at all — no write, no
notification — and the persisted snapshot is unchanged. -/
theorem claim_C4_unchanged_noop (c : Config) (url prev : String)
    (html : Markup) (tf : Bool) (hprev : prev ≠ "")
    (heq : extract_product_list html = prev) :
    mainRun c url prev (Except.ok html) tf = Except.ok [] ∧
      persistedAfterRun c url prev (Except.ok html) tf = prev := by
  have h1 : mainRun c url prev (Except.ok html) tf = Except.ok [] := by
    simp only [mainRun, if_neg hprev, if_pos heq]
  exact ⟨h1, by simp [persistedAfterRun, h1, persistedAfter]⟩

theorem claim_C4_witness :
    ("A" : String) ≠ "" ∧
      extract_product_list [⟨"/us/en/product/1", "A"⟩] = "A" ∧
      (mainRun ⟨none, none, none⟩ "u" "A"
          (Except.ok [⟨"/us/en/product/1", "A"⟩]) false = Except.ok [] ∧
        persistedAfterRun ⟨none, none, none⟩ "u" "A"
          (Except.ok [⟨"/us/en/product/1", "A"⟩]) false = "A") :=
  ⟨by decide, by decide,
    claim_C4_unchanged_noop ⟨none, none, none⟩ "u" "A"
      [⟨"/us/en/product/1", "A"⟩] false (by decide) (by decide)⟩

/-- C10: if the fetch step fails, the run propagates the error and performs
no write to the snapshot store: the previously persisted snapshot is
unchanged by the failed run. -/
theorem claim_C10_fetch_failure_writes_nothing (c : Config)
    (url prev msg : String) (tf : Bool) :
    mainRun c url prev (Except.error msg) tf = Except.error msg ∧
      persistedAfterRun c url prev (Except.error msg) tf = prev :=
  ⟨rfl, rfl⟩

/-- C8: whenever the mail configuration is incomplete (`EMAIL_ENABLED` is
false), the notifier returns normally — an `Except.ok`, never an exception —
with an empty event list, so no network send is attempted. -/
theorem claim_C8_disabled_notifier_no_send (c : Config) (tf : Bool)
    (subject body : String) (h : EMAIL_ENABLED c = false) :
    send_email_notification c tf subject body = Except.ok [] := by
  simp [send_email_notification, h]

theorem claim_C8_witness :
    EMAIL_ENABLED ⟨some "sender@example.com", none, none⟩ = false ∧
      send_email_notification ⟨some "sender@example.com", none, none⟩ true
        "subject" "body" = Except.ok [] :=
  ⟨by decide,
    claim_C8_disabled_notifier_no_send ⟨some "sender@example.com", none, none⟩
      true "subject" "body" (by decide)⟩

/-- C2: in every run whose prior snapshot is `"A\nB"` and whose freshly
extracted content is `"A\nB\nC"`, the orchestrator calls the notifier exactly
once, the notification body contains both `"A\nB"` and `"A\nB\nC"`, and the
persisted snapshot after the run is `"A\nB\nC"`. -/
theorem claim_C2_changed_path (c : Config) (url : String) (tf : Bool)
    (html : Markup) (hcur : extract_product_list html = "A\nB\nC") :
    ∃ tr, mainRun c url "A\nB" (Except.ok html) tf = Except.ok tr ∧
      tr.countP Ev.isNotifyCall = 1 ∧
      (∃ body evs, tr = Ev.notifyCall SUBJECT body ::
          evs ++ [Ev.save "A\nB\nC"] ∧
        containsSubstr "A\nB" body = true ∧
        containsSubstr "A\nB\nC" body = true) ∧
      persistedAfter "A\nB" tr = "A\nB\nC" := by
  have hprev : ("A\nB" : String) ≠ "" := by decide
  have hne : extract_product_list html ≠ "A\nB" := by rw [hcur]; decide
  obtain ⟨evs, hevs, hcnt, -⟩ := notifier_never_raises c tf SUBJECT
    (emailBody url "A\nB" (extract_product_list html))
  have hmain : mainRun c url "A\nB" (Except.ok html) tf =
      Except.ok (Ev.notifyCall SUBJECT
          (emailBody url "A\nB" (extract_product_list html)) ::
        evs ++ [Ev.save (extract_product_list html)]) := by
    simp only [mainRun, if_neg hprev, if_neg hne, hevs]
  rw [hcur] at hmain
  refine ⟨_, hmain, ?_, ⟨emailBody url "A\nB" "A\nB\nC", evs, rfl,
    prev_infix_emailBody url "A\nB" "A\nB\nC",
    cur_infix_emailBody url "A\nB" "A\nB\nC"⟩, ?_⟩
  · simp [List.countP_cons, List.countP_append, hcnt, Ev.isNotifyCall]
  · have h1 : persistedAfter "A\nB" (Ev.notifyCall SUBJECT
        (emailBody url "A\nB" "A\nB\nC") :: evs ++ [Ev.save "A\nB\nC"]) =
        persistedAfter "A\nB" (evs ++ [Ev.save "A\nB\nC"]) := rfl
    rw [h1, persistedAfter_append_save]

theorem claim_C2_witness :
    extract_product_list [⟨"/us/en/product/1", "A"⟩, ⟨"/us/en/product/2", "B"⟩,
        ⟨"/us/en/product/3", "C"⟩] = "A\nB\nC" ∧
      ∃ tr, mainRun ⟨none, none, none⟩ "u" "A\nB"
          (Except.ok [⟨"/us/en/product/1", "A"⟩, ⟨"/us/en/product/2", "B"⟩,
            ⟨"/us/en/product/3", "C"⟩]) false = Except.ok tr ∧
        tr.countP Ev.isNotifyCall = 1 ∧
        (∃ body evs, tr = Ev.notifyCall SUBJECT body ::
            evs ++ [Ev.save "A\nB\nC"] ∧
          containsSubstr "A\nB" body = true ∧
          containsSubstr "A\nB\nC" body = true) ∧
        persistedAfter "A\nB" tr = "A\nB\nC" :=
  ⟨by decide,
    claim_C2_changed_path ⟨none, none, none⟩ "u" false
      [⟨"/us/en/product/1", "A"⟩, ⟨"/us/en/product/2", "B"⟩,
        ⟨"/us/en/product/3", "C"⟩] (by decide)⟩

/-- C1 counterexample: a changed run in which the trace contains both a
notifier call and a save, yet no save precedes any notifier call — `main`
calls `send_email_notification` first and `save_snapshot` after, so the
claimed persist-then-notify order does not hold on the code. -/
theorem claim_C1_counterexample :
    mainRun ⟨none, none, none⟩ "u" "A"
        (Except.ok [⟨"/us/en/product/1", "B"⟩]) false =
      Except.ok [Ev.notifyCall SUBJECT (emailBody "u" "A" "B"), Ev.save "B"] ∧
      saveBeforeNotify
        [Ev.notifyCall SUBJECT (emailBody "u" "A" "B"), Ev.save "B"] = false ∧
      notifyBeforeSave
        [Ev.notifyCall SUBJECT (emailBody "u" "A" "B"), Ev.save "B"] = true :=
  ⟨rfl, rfl, rfl⟩

/-- C1 (amended): on the changed path the orchestrator notifies first and
then persists the current snapshot as the new baseline; since the notifier
catches and swallows transport failures, the new snapshot is nevertheless
persisted in every run — in particular in every run in which notification
fails. -/
theorem claim_C1_notify_then_persist (c : Config) (url prev : String)
    (html : Markup) (tf : Bool) (hprev : prev ≠ "")
    (hne : extract_product_list html ≠ prev) :
    ∃ tr, mainRun c url prev (Except.ok html) tf = Except.ok tr ∧
      notifyBeforeSave tr = true ∧ saveBeforeNotify tr = false ∧
      persistedAfterRun c url prev (Except.ok html) tf =
        extract_product_list html := by
  rcases notifier_shape c tf SUBJECT
      (emailBody url prev (extract_product_list html)) with h | ⟨u, toA, h⟩
  · have hmain : mainRun c url prev (Except.ok html) tf =
        Except.ok [Ev.notifyCall SUBJECT
            (emailBody url prev (extract_product_list html)),
          Ev.save (extract_product_list html)] := by
      simp only [mainRun, if_neg hprev, if_neg hne, h]
      rfl
    refine ⟨_, hmain, ?_, ?_, ?_⟩
    · simp [notifyBeforeSave, Ev.isSave, Ev.isNotifyCall]
    · simp [saveBeforeNotify, Ev.isSave, Ev.isNotifyCall]
    · simp [persistedAfterRun, hmain, persistedAfter]
  · have hmain : mainRun c url prev (Except.ok html) tf =
        Except.ok [Ev.notifyCall SUBJECT
            (emailBody url prev (extract_product_list html)),
          Ev.netSend u toA SUBJECT
            (emailBody url prev (extract_product_list html)),
          Ev.save (extract_product_list html)] := by
      simp only [mainRun, if_neg hprev, if_neg hne, h]
      rfl
    refine ⟨_, hmain, ?_, ?_, ?_⟩
    · simp [notifyBeforeSave, Ev.isSave, Ev.isNotifyCall]
    · simp [saveBeforeNotify, Ev.isSave, Ev.isNotifyCall]
    · simp [persistedAfterRun, hmain, persistedAfter]

theorem claim_C1_witness :
    ("A" : String) ≠ "" ∧
      extract_product_list [⟨"/us/en/product/1", "B"⟩] ≠ "A" ∧
      ∃ tr, mainRun ⟨some "sender@example.com", some "secret", none⟩ "u" "A"
          (Except.ok [⟨"/us/en/product/1", "B"⟩]) true = Except.ok tr ∧
        notifyBeforeSave tr = true ∧ saveBeforeNotify tr = false ∧
        persistedAfterRun ⟨some "sender@example.com", some "secret", none⟩ "u"
            "A" (Except.ok [⟨"/us/en/product/1", "B"⟩]) true =
          extract_product_list [⟨"/us/en/product/1", "B"⟩] :=
  ⟨by decide, by decide,
    claim_C1_notify_then_persist ⟨some "sender@example.com", some "secret", none⟩
      "u" "A" [⟨"/us/en/product/1", "B"⟩] true (by decide) (by decide)⟩

/-- C5: the extractor trims, deduplicates and lexicographically sorts the
texts of matching anchors before joining with newlines: the concrete two-bag
example extracts to `"Birkin Bag\nKelly Bag"`, and any markup whose matching
elements all carry the same (non-empty) stripped text extracts to that text
exactly once. -/
theorem claim_C5_trim_dedup_sort :
    extract_product_list [⟨"/us/en/product/1234", "  Kelly Bag  "⟩,
        ⟨"/us/en/product/1234", "  Kelly Bag  "⟩,
        ⟨"/us/en/product/5678", "Birkin Bag"⟩] = "Birkin Bag\nKelly Bag" ∧
      ∀ (html : Markup) (t : String), html.filter matchesSelector ≠ [] →
        (∀ a ∈ html.filter matchesSelector, strip a.text = t) → t ≠ "" →
        extract_product_list html = t := by
  refine ⟨by decide, ?_⟩
  intro html t hne hall ht
  have hmap : (html.filter matchesSelector).map (fun a => strip a.text) =
      List.replicate (html.filter matchesSelector).length t := by
    refine List.eq_replicate_iff.mpr ⟨by simp, ?_⟩
    intro b hb
    obtain ⟨a, ha, rfl⟩ := List.mem_map.mp hb
    exact hall a ha
  have hnames : namesOf html =
      List.replicate (html.filter matchesSelector).length t := by
    rw [namesOf, hmap]
    refine List.filter_eq_self.mpr ?_
    intro b hb
    rw [List.eq_of_mem_replicate hb]
    exact bne_iff_ne.mpr ht
  have hlen : (html.filter matchesSelector).length ≠ 0 := by
    simpa [List.length_eq_zero] using hne
  have huniq : uniqueNamesOf html = [t] := by
    rw [uniqueNamesOf, hnames, List.replicate_dedup hlen]
    rfl
  rw [extract_product_list_def, huniq]
  rfl

theorem claim_C5_witness :
    ([⟨"/us/en/product/1", "Bag"⟩, ⟨"/us/en/product/2", "  Bag  "⟩,
        ⟨"/us/en/product/3", "Bag"⟩] : Markup).filter matchesSelector ≠ [] ∧
      (∀ a ∈ ([⟨"/us/en/product/1", "Bag"⟩, ⟨"/us/en/product/2", "  Bag  "⟩,
        ⟨"/us/en/product/3", "Bag"⟩] : Markup).filter matchesSelector,
        strip a.text = "Bag") ∧
      ("Bag" : String) ≠ "" ∧
      extract_product_list [⟨"/us/en/product/1", "Bag"⟩,
        ⟨"/us/en/product/2", "  Bag  "⟩, ⟨"/us/en/product/3", "Bag"⟩] = "Bag" :=
  ⟨by decide, by decide, by decide,
    claim_C5_trim_dedup_sort.2 [⟨"/us/en/product/1", "Bag"⟩,
      ⟨"/us/en/product/2", "  Bag  "⟩, ⟨"/us/en/product/3", "Bag"⟩] "Bag"
      (by decide) (by decide) (by decide)⟩

/-- C6: if no element matches the product-link selector, or every matching
element's text is empty after stripping, the extractor returns exactly the
sentinel string. -/
theorem claim_C6_empty_match_sentinel (html : Markup)
    (h : ∀ a ∈ html.filter matchesSelector, strip a.text = "") :
    extract_product_list html = "NO_PRODUCTS_FOUND" := by
  have hnames : namesOf html = [] := by
    rw [namesOf]
    refine List.filter_eq_nil_iff.mpr ?_
    intro t ht
    obtain ⟨a, ha, rfl⟩ := List.mem_map.mp ht
    simp [h a ha]
  have huniq : uniqueNamesOf html = [] := by
    rw [uniqueNamesOf, hnames]
    rfl
  rw [extract_product_list_def, huniq]
  rfl

theorem claim_C6_witness :
    (∀ a ∈ ([⟨"/us/en/product/9", "   "⟩, ⟨"/us/en/help", "Contact"⟩] :
        Markup).filter matchesSelector, strip a.text = "") ∧
      extract_product_list [⟨"/us/en/product/9", "   "⟩,
        ⟨"/us/en/help", "Contact"⟩] = "NO_PRODUCTS_FOUND" :=
  ⟨by decide,
    claim_C6_empty_match_sentinel
      [⟨"/us/en/product/9", "   "⟩, ⟨"/us/en/help", "Contact"⟩] (by decide)⟩

/-- C7: the extractor is order-independent — any two markup documents whose
matching elements carry the same set of stripped non-empty texts, in any DOM
order and with any multiplicities, extract to identical snapshot strings. -/
theorem claim_C7_order_independent (h₁ h₂ : Markup)
    (h : ∀ t, t ∈ namesOf h₁ ↔ t ∈ namesOf h₂) :
    extract_product_list h₁ = extract_product_list h₂ := by
  rw [extract_product_list_def, extract_product_list_def,
    uniqueNamesOf_eq_of_mem_iff h]

theorem claim_C7_witness :
    (∀ t, t ∈ namesOf [⟨"/us/en/product/1", " Kelly "⟩,
          ⟨"/us/en/product/2", "Birkin"⟩, ⟨"/us/en/product/3", "Kelly"⟩] ↔
        t ∈ namesOf [⟨"/us/en/product/4", "Birkin"⟩,
          ⟨"/us/en/product/5", "Kelly"⟩]) ∧
      extract_product_list [⟨"/us/en/product/1", " Kelly "⟩,
          ⟨"/us/en/product/2", "Birkin"⟩, ⟨"/us/en/product/3", "Kelly"⟩] =
        extract_product_list [⟨"/us/en/product/4", "Birkin"⟩,
          ⟨"/us/en/product/5", "Kelly"⟩] := by
  have hmem : ∀ t, t ∈ namesOf [⟨"/us/en/product/1", " Kelly "⟩,
      ⟨"/us/en/product/2", "Birkin"⟩, ⟨"/us/en/product/3", "Kelly"⟩] ↔
      t ∈ namesOf [⟨"/us/en/product/4", "Birkin"⟩,
        ⟨"/us/en/product/5", "Kelly"⟩] := by
    intro t
    have e₁ : namesOf [⟨"/us/en/product/1", " Kelly "⟩,
        ⟨"/us/en/product/2", "Birkin"⟩, ⟨"/us/en/product/3", "Kelly"⟩] =
        ["Kelly", "Birkin", "Kelly"] := by decide
    have e₂ : namesOf [⟨"/us/en/product/4", "Birkin"⟩,
        ⟨"/us/en/product/5", "Kelly"⟩] = ["Birkin", "Kelly"] := by decide
    rw [e₁, e₂]
    simp only [List.mem_cons, List.not_mem_nil, or_false]
    tauto
  exact ⟨hmem, claim_C7_order_independent _ _ hmem⟩

/-- C9: the extractor never returns the empty string — its result is the
sentinel or the newline-join of a non-empty sorted list of non-empty names —
so an empty previous snapshot can only mean the page was never checked. -/
theorem claim_C9_never_empty (html : Markup) :
    extract_product_list html ≠ "" ∧
      (extract_product_list html = "NO_PRODUCTS_FOUND" ∨
        (uniqueNamesOf html ≠ [] ∧
          extract_product_list html =
            String.intercalate "\n" (uniqueNamesOf html) ∧
          ∀ t ∈ uniqueNamesOf html, t ≠ "")) := by
  have hmem : ∀ t ∈ uniqueNamesOf html, t ≠ "" := by
    intro t ht
    have h2 := (List.mem_filter.mp (mem_uniqueNamesOf.mp ht)).2
    exact bne_iff_ne.mp h2
  rw [extract_product_list_def]
  cases hu : uniqueNamesOf html with
  | nil => exact ⟨by decide, Or.inl rfl⟩
  | cons a rest =>
    have ha : a ≠ "" := by
      refine hmem a ?_
      rw [hu]
      exact List.mem_cons_self a rest
    have hjoin : String.intercalate "\n" (a :: rest) ≠ "" :=
      intercalate_cons_ne_empty rest ha
    refine ⟨by simpa using hjoin, Or.inr ⟨by simp [hu], ?_, ?_⟩⟩
    · simp [hu]
    · rw [hu] at hmem
      exact hmem

theorem claim_C9_witness :
    extract_product_list [⟨"/us/en/product/9", "   "⟩] ≠ "" ∧
      (extract_product_list [⟨"/us/en/product/9", "   "⟩] =
          "NO_PRODUCTS_FOUND" ∨
        (uniqueNamesOf [⟨"/us/en/product/9", "   "⟩] ≠ [] ∧
          extract_product_list [⟨"/us/en/product/9", "   "⟩] =
            String.intercalate "\n"
              (uniqueNamesOf [⟨"/us/en/product/9", "   "⟩]) ∧
          ∀ t ∈ uniqueNamesOf [⟨"/us/en/product/9", "   "⟩], t ≠ "")) :=
  claim_C9_never_empty [⟨"/us/en/product/9", "   "⟩]

end HermesWatcher
